import Mathlib

/-!
Shallow embedding of io_uring/fdinfo.c (the io_uring fdinfo / debug-dump
subsystem): the Snapshot Reporter (`io_uring_show_fdinfo` and its worker
`__io_uring_show_fdinfo`) and the Stall Diagnostic Dumper
(`io_uring_dump_reqs`).

Modelling conventions:
- `unsigned int` (u32) values are `Nat` reduced `% 2^32` wherever the C
  arithmetic can wrap; `u8`/`u64` fields are `Nat`; signed ints are `Int`.
- `ctx->flags & IORING_SETUP_X` tests are modelled as Bool fields of `Ctx`
  (one per setup bit the file tests), since only the tests appear in this
  translation unit.
- The opcode table `io_issue_defs` (opdef.c), the display-name service
  `io_uring_get_opcode`, the opcode bound `IORING_OP_LAST` and the CQE flag
  bit `IORING_CQE_F_32` come from other translation units / uapi headers;
  they are bundled as the external-collaborator structure `Globals` and the
  development is parametric in them.
- The output sink (`seq_file`) is modelled as the list of emitted items
  (`Frag`), one item per `seq_printf`/`seq_puts`-produced logical fragment;
  `render` maps a fragment to the characters it prints (field-width padding
  such as `%5u` is elided: it inserts spaces only, never newlines).
- The kernel log sink of the dumper is likewise a list of `KLine` items.
-/

namespace Fdinfo

/-- The modulus of C `unsigned int` arithmetic, 2^32. -/
def U32 : Nat := 2 ^ 32

/-- u32 subtraction `a - b` (two's-complement wraparound), operands reduced
to u32 first as the C types dictate. -/
def sub32 (a b : Nat) : Nat := (a % U32 + (U32 - b % U32)) % U32

/-- The speculation-safe bounds clamp `array_index_nospec(index, size)`; equal
to `index` whenever `index < size`, and 0 otherwise. -/
def array_index_nospec (index size : Nat) : Nat :=
  if index < size then index else 0

/-- One submission-queue entry (`struct io_uring_sqe`), restricted to the
fields this file reads. `extra` models the eight trailing u64 words read
from the following 64-byte slot (`(u64 *)(sqe + 1)`) when the entry is a
128-byte entry. -/
structure Sqe where
  opcode : Nat
  fd : Int
  flags : Nat
  off : Nat
  addr : Nat
  rw_flags : Nat
  buf_index : Nat
  user_data : Nat
  extra : List Nat
  deriving DecidableEq, Repr

/-- One completion-queue entry (`struct io_uring_cqe`). `big_cqe0/1` are
the two trailing u64 words (`cqe->big_cqe[0..1]`) that overlay the next
16-byte slot when the entry is 32-byte extended. -/
structure Cqe where
  user_data : Nat
  res : Int
  flags : Nat
  big_cqe0 : Nat
  big_cqe1 : Nat
  deriving DecidableEq, Repr

/-- Per-opcode issue definition (`struct io_issue_def`), restricted to the
one field this file reads. -/
structure OpDef where
  is_128 : Bool
  deriving DecidableEq, Repr

/-- External collaborators of fdinfo.c: the opcode table of opdef.c, the
opcode display-name service, the opcode count `IORING_OP_LAST`, and the
uapi CQE flag bit `IORING_CQE_F_32`; none are defined in this translation
unit, so the development is parametric in them. -/
structure Globals where
  IORING_OP_LAST : Nat
  io_issue_defs : Nat → OpDef
  io_uring_get_opcode : Nat → String
  IORING_CQE_F_32 : Nat

/-- The shared ring memory (`struct io_rings`): the four u32 cursors and
the completion-entry array. -/
structure Rings where
  sq_head : Nat
  sq_tail : Nat
  cq_head : Nat
  cq_tail : Nat
  cqes : Nat → Cqe

/-- A request's task context (`struct io_uring_task` reached through
`req->tctx`): owning task pid and its queued task_work callback names. -/
structure Tctx where
  pid : Int
  task_works : List String
  deriving DecidableEq, Repr

/-- An in-flight request (`struct io_kiocb`), restricted to the fields the
dumper and the poll-list printer read. -/
structure Req where
  opcode : Nat
  flags : Nat
  user_data : Nat
  refs : Int
  poll_refs : Int
  tctx : Option Tctx
  cancel_seq : Int
  cancel_seq_set : Bool
  tw_func : String
  deriving DecidableEq, Repr

/-- A registered-file table slot's node; `file` is the result of
`io_slot_file` on the node (None models a NULL file). -/
structure FileNode where
  file : Option String
  deriving DecidableEq, Repr

/-- A pinned user buffer (`struct io_mapped_ubuf`): base address and
length. -/
structure Ubuf where
  ubuf : Nat
  len : Nat
  deriving DecidableEq, Repr

/-- A registered-buffer table slot's node (`struct io_rsrc_node`); `buf`
may be NULL even when the node exists. -/
structure BufNode where
  buf : Option Ubuf
  deriving DecidableEq, Repr

/-- NAPI tracking mode (`ctx->napi_track_mode`). -/
inductive NapiMode where
  | inactive
  | dynamic
  | static
  | unknown (raw : Nat)
  deriving DecidableEq, Repr

/-- SQPOLL thread data (`struct io_sq_data`); `thread` is the
RCU-protected task pointer, carrying `io_sq_cpu_usec(tsk)` when the thread
is still alive. -/
structure SqData where
  task_pid : Int
  sq_cpu : Int
  work_time : Nat
  thread : Option Nat

/-- The ring context (`struct io_ring_ctx`), restricted to what fdinfo.c
reads. The `flags_*` Booleans model the `ctx->flags & IORING_SETUP_*`
tests. `sq_array` and `sq_sqes` are the indirection array and the SQE
array (`sq_sqes` is indexed in 64-byte units, so a 128-byte entry occupies
slots `i` and `i+1`). -/
structure Ctx where
  sq_entries : Nat
  cq_entries : Nat
  flags_SQE128 : Bool
  flags_CQE32 : Bool
  flags_SQE_MIXED : Bool
  flags_NO_SQARRAY : Bool
  flags_SQPOLL : Bool
  rings : Option Rings
  cached_sq_head : Nat
  cached_cq_tail : Nat
  sq_array : Nat → Nat
  sq_sqes : Nat → Sqe
  sq_data : SqData
  file_table : List (Option FileNode)
  buf_table : List (Option BufNode)
  cancel_table : List (List Req)
  cq_overflow_list : List Cqe
  work_llist : List Req
  retry_llist : List Req
  fallback_llist : List Req
  defer_list : List Req
  nr_req_allocated : Nat
  cancel_seq : Int
  napi_track_mode : NapiMode
  napi_busy_poll_dt : Nat
  napi_prefer_busy_poll : Bool

/-- One logical output fragment written to the `seq_file` sink. Each
constructor corresponds to one `seq_printf`/`seq_puts` format in
fdinfo.c; `sqeLine` groups the per-SQE line's head, optional extra-word
tail and terminating newline (none of which contain interior newlines). -/
inductive Frag where
  | kvU (key : String) (v : Nat)
  | kvX (key : String) (v : Nat)
  | kvI (key : String) (v : Int)
  | text (s : String)
  | sqeLine (sq_idx : Nat) (opname : String) (sqe : Sqe) (extras : List Nat)
  | invalidSqe (sq_idx : Nat)
  | corruptedSqe (sq_idx : Nat)
  | cqeMain (idx : Nat) (cqe : Cqe)
  | cqeExtra (e1 e2 : Nat)
  | newline
  | filePath (i : Nat) (path : String)
  | bufLine (i : Nat) (addr len : Nat)
  | bufNone (i : Nat)
  | pollEntry (op : Nat) (tw : Bool)
  | overflowEntry (user_data : Nat) (res : Int) (flags : Nat)
  | napiUnknown (raw : Nat)
  deriving DecidableEq, Repr

/-- The SQE index shift `sq_shift`: 1 when the ring is configured for 128-byte SQEs
(IORING_SETUP_SQE128), else 0 (fdinfo.c:76-77). -/
def sq_shift (ctx : Ctx) : Nat := if ctx.flags_SQE128 then 1 else 0

/-- The resolved SQ slot index for loop iteration `i` with current mutable
head `sq_head` (fdinfo.c:96-105): `entry = i + sq_head` in u32, then either
the masked entry itself (IORING_SETUP_NO_SQARRAY) or the `sq_array`
indirection at the masked entry. -/
def sqIdxAt (ctx : Ctx) (sq_mask i sq_head : Nat) : Nat :=
  let entry := (i + sq_head) % U32
  if ctx.flags_NO_SQARRAY then entry &&& sq_mask
  else ctx.sq_array (entry &&& sq_mask)

/-- The eight trailing u64 words of the 128-byte entry whose first 64-byte
slot is `slot` (the `j`-loop of fdinfo.c:143-147 over `(u64 *)(sqe + 1)`). -/
def sqeExtraWords (ctx : Ctx) (slot : Nat) : List Nat :=
  (ctx.sq_sqes (slot + 1)).extra

/-- The SQ scan loop of `__io_uring_show_fdinfo` (fdinfo.c:95-150).
`fuel` is the number of remaining iterations (`sq_entries - i`), `i` the
loop counter and `sq_head` the function-local head cursor, which the
mixed-width wide-entry branch increments (`++sq_head`, fdinfo.c:123).
Returns the fragments emitted from iteration `i` onward. -/
def sqScan (g : Globals) (ctx : Ctx) (sq_mask shift : Nat) :
    Nat → Nat → Nat → List Frag
  | 0, _, _ => []
  | fuel + 1, i, sq_head =>
    let sq_idx := sqIdxAt ctx sq_mask i sq_head
    if sq_idx > sq_mask then
      sqScan g ctx sq_mask shift fuel (i + 1) sq_head
    else
      let sqe := ctx.sq_sqes (sq_idx <<< shift)
      if sqe.opcode ≥ g.IORING_OP_LAST then
        sqScan g ctx sq_mask shift fuel (i + 1) sq_head
      else
        let opcode := array_index_nospec sqe.opcode g.IORING_OP_LAST
        if shift ≠ 0 then
          Frag.sqeLine sq_idx (g.io_uring_get_opcode opcode) sqe
              (sqeExtraWords ctx (sq_idx <<< shift)) ::
            sqScan g ctx sq_mask shift fuel (i + 1) sq_head
        else if (g.io_issue_defs opcode).is_128 then
          if ¬ctx.flags_SQE_MIXED then
            [Frag.invalidSqe sq_idx]
          else
            let sq_head' := (sq_head + 1) % U32
            if sq_head' &&& sq_mask == 0 then
              [Frag.corruptedSqe sq_idx]
            else
              Frag.sqeLine sq_idx (g.io_uring_get_opcode opcode) sqe
                  (sqeExtraWords ctx (sq_idx <<< shift)) ::
                sqScan g ctx sq_mask shift fuel (i + 1) sq_head'
        else
          Frag.sqeLine sq_idx (g.io_uring_get_opcode opcode) sqe [] ::
            sqScan g ctx sq_mask shift fuel (i + 1) sq_head

/-- The submission-queue section (fdinfo.c:93-150): the `SQEs:` count line
(the raw u32 difference `sq_tail - sq_head`), then the scan over
`min(sq_tail - sq_head, ctx->sq_entries)` entries starting at `sq_head`. -/
def sqSection (g : Globals) (ctx : Ctx) (r : Rings) : List Frag :=
  let sq_head := r.sq_head % U32
  let sq_tail := r.sq_tail % U32
  let sq_mask := ctx.sq_entries - 1
  Frag.kvU "SQEs" (sub32 sq_tail sq_head) ::
    sqScan g ctx sq_mask (sq_shift ctx)
      (Nat.min (sub32 sq_tail sq_head) ctx.sq_entries) 0 sq_head

/-- Whether the completion entry at u32 cursor `cq_head` is treated as
32-byte extended (fdinfo.c:157): its own `IORING_CQE_F_32` flag bit, or
the ring-wide `IORING_SETUP_CQE32` setup flag. -/
def cqe32At (g : Globals) (ctx : Ctx) (r : Rings) (cq_mask cq_head : Nat) :
    Bool :=
  ((r.cqes (cq_head &&& cq_mask)).flags &&& g.IORING_CQE_F_32 != 0) ||
    ctx.flags_CQE32

/-- The fragments one CQ loop iteration emits (fdinfo.c:159-165): the main
line without its newline, then for a 32-byte entry the two extra u64
fields with a trailing newline, then an unconditional newline. -/
def cqEntryFrags (g : Globals) (ctx : Ctx) (r : Rings) (cq_mask cq_head : Nat) :
    List Frag :=
  let cqe := r.cqes (cq_head &&& cq_mask)
  [Frag.cqeMain (cq_head &&& cq_mask) cqe] ++
    (if cqe32At g ctx r cq_mask cq_head then
      [Frag.cqeExtra cqe.big_cqe0 cqe.big_cqe1]
    else []) ++
    [Frag.newline]

/-- The CQ scan loop of `__io_uring_show_fdinfo` (fdinfo.c:152-169):
`while (cq_head < cq_tail)`, advancing the u32 cursor by two slots for a
32-byte entry and one otherwise. `fuel` bounds the iteration count (the
loop body is exact; the caller passes fuel exceeding any possible
iteration count). Returns the emitted fragments and the final cursor. -/
def cqScan (g : Globals) (ctx : Ctx) (r : Rings) (cq_mask : Nat) :
    Nat → Nat → Nat → List Frag × Nat
  | 0, cq_head, _ => ([], cq_head)
  | fuel + 1, cq_head, cq_tail =>
    if cq_head < cq_tail then
      let cqe32 := cqe32At g ctx r cq_mask cq_head
      let rest := cqScan g ctx r cq_mask fuel
        ((cq_head + (if cqe32 then 2 else 1)) % U32) cq_tail
      (cqEntryFrags g ctx r cq_mask cq_head ++ rest.1, rest.2)
    else ([], cq_head)

/-- Fuel passed to `cqScan` by the section assembler: a strict upper bound
on the number of iterations the C `while` can perform (each iteration
advances the u32 cursor by at least one, and the cursor can overtake the
tail at most once per 2^32 wrap, so 2^33 iterations always suffice). -/
def cqFuel : Nat := 2 ^ 33

/-- The completion-queue section (fdinfo.c:151-169): the `CQEs:` count
line (the raw u32 difference), then the CQ scan. -/
def cqSection (g : Globals) (ctx : Ctx) (r : Rings) : List Frag :=
  let cq_head := r.cq_head % U32
  let cq_tail := r.cq_tail % U32
  let cq_mask := ctx.cq_entries - 1
  Frag.kvU "CQEs" (sub32 cq_tail cq_head) ::
    (cqScan g ctx r cq_mask cqFuel cq_head cq_tail).1

/-- The SQPOLL thread section (fdinfo.c:171-200): when the ring is in
SQPOLL mode and the RCU-protected thread pointer is still live, report
pid, cpu and the two times; otherwise the -1/0 sentinels. The four lines
are printed unconditionally. -/
def sqPollSection (ctx : Ctx) : List Frag :=
  let st :=
    if ctx.flags_SQPOLL then
      match ctx.sq_data.thread with
      | some usec =>
        (ctx.sq_data.task_pid, ctx.sq_data.sq_cpu, usec, ctx.sq_data.work_time)
      | none => (-1, -1, 0, 0)
    else (-1, -1, 0, 0)
  [Frag.kvI "SqThread" st.1, Frag.kvI "SqThreadCpu" st.2.1,
   Frag.kvU "SqTotalTime" st.2.2.1, Frag.kvU "SqWorkTime" st.2.2.2]

/-- The resolved file of a registered-file table slot (fdinfo.c:203-206):
NULL unless the node exists and `io_slot_file` yields a file. -/
def slotFile : Option FileNode → Option String
  | none => none
  | some node => node.file

/-- The registered-file table loop body (fdinfo.c:202-212), iterating the
slots from index `i` upward: one path line per slot that resolves to a
file, no line for an empty slot. -/
def fileRows : Nat → List (Option FileNode) → List Frag
  | _, [] => []
  | i, node :: rest =>
    (match slotFile node with
     | some f => [Frag.filePath i f]
     | none => []) ++ fileRows (i + 1) rest

/-- The registered-file table section (fdinfo.c:201-212): the `UserFiles:`
count line (`ctx->file_table.data.nr`, the table's slot count), then the
slot loop. -/
def fileSection (ctx : Ctx) : List Frag :=
  Frag.kvU "UserFiles" ctx.file_table.length :: fileRows 0 ctx.file_table

/-- The resolved buffer of a registered-buffer table slot
(fdinfo.c:215-218): NULL unless the node exists and its `buf` is set. -/
def slotBuf : Option BufNode → Option Ubuf
  | none => none
  | some node => node.buf

/-- The registered-buffer table loop body (fdinfo.c:214-223), iterating
the slots from index `i` upward: exactly one line per slot —
address/length for an occupied slot, the `<none>` placeholder otherwise. -/
def bufRows : Nat → List (Option BufNode) → List Frag
  | _, [] => []
  | i, node :: rest =>
    (match slotBuf node with
     | some buf => Frag.bufLine i buf.ubuf buf.len
     | none => Frag.bufNone i) :: bufRows (i + 1) rest

/-- The registered-buffer table section (fdinfo.c:213-223): the
`UserBufs:` count line (`ctx->buf_table.nr`, the table's slot count), then
the slot loop. -/
def bufSection (ctx : Ctx) : List Frag :=
  Frag.kvU "UserBufs" ctx.buf_table.length :: bufRows 0 ctx.buf_table

/-- The poll-list section (fdinfo.c:225-233): the header, then for every
hash bucket and every request chained into it, its opcode and whether its
owning task has pending task_work. -/
def pollListSection (ctx : Ctx) : List Frag :=
  Frag.text "PollList:" ::
    (ctx.cancel_table.flatMap (fun hb =>
      hb.map (fun req =>
        Frag.pollEntry req.opcode
          (match req.tctx with
           | some t => !t.task_works.isEmpty
           | none => false))))

/-- The overflow-list section (fdinfo.c:235-244): the header, then one
line per overflowed CQE, traversed under the completion spinlock (lock
acquisition/release has no observable effect in this sequential model). -/
def overflowSection (ctx : Ctx) : List Frag :=
  Frag.text "CqOverflowList:" ::
    ctx.cq_overflow_list.map (fun cqe =>
      Frag.overflowEntry cqe.user_data cqe.res cqe.flags)

/-- The NAPI status block `napi_show_fdinfo` (fdinfo.c:21-59), CONFIG_NET_RX_BUSY_POLL variant. -/
def napiSection (ctx : Ctx) : List Frag :=
  let common := fun (strategy : String) =>
    [Frag.text "NAPI:\tenabled", Frag.text ("napi tracking:\t" ++ strategy),
     Frag.kvU "napi_busy_poll_dt" ctx.napi_busy_poll_dt,
     Frag.text (if ctx.napi_prefer_busy_poll then
       "napi_prefer_busy_poll:\ttrue" else "napi_prefer_busy_poll:\tfalse")]
  match ctx.napi_track_mode with
  | NapiMode.inactive => [Frag.text "NAPI:\tdisabled"]
  | NapiMode.dynamic => common "dynamic"
  | NapiMode.static => common "static"
  | NapiMode.unknown raw => [Frag.napiUnknown raw]

/-- The header lines of `__io_uring_show_fdinfo` (fdinfo.c:85-92): masks,
the four shared u32 cursors and the two kernel-cached cursors. -/
def headerSection (ctx : Ctx) (r : Rings) : List Frag :=
  [Frag.kvX "SqMask" (ctx.sq_entries - 1),
   Frag.kvU "SqHead" (r.sq_head % U32),
   Frag.kvU "SqTail" (r.sq_tail % U32),
   Frag.kvU "CachedSqHead" (ctx.cached_sq_head % U32),
   Frag.kvX "CqMask" (ctx.cq_entries - 1),
   Frag.kvU "CqHead" (r.cq_head % U32),
   Frag.kvU "CqTail" (r.cq_tail % U32),
   Frag.kvU "CachedCqTail" (ctx.cached_cq_tail % U32)]

/-- The worker `__io_uring_show_fdinfo` (fdinfo.c:61-246): the full snapshot, section
by section in source order. The function is only reached with the rings
allocated; a NULL `ctx->rings` is mapped to the empty output. -/
def io_uring_show_fdinfo_worker (g : Globals) (ctx : Ctx) : List Frag :=
  match ctx.rings with
  | none => []
  | some r =>
    headerSection ctx r ++ sqSection g ctx r ++ cqSection g ctx r ++
      sqPollSection ctx ++ fileSection ctx ++ bufSection ctx ++
      pollListSection ctx ++ overflowSection ctx ++ napiSection ctx

/-- The entry point `io_uring_show_fdinfo` (fdinfo.c:350-363). The ring's main mutex is
modelled as a Bool (`true` = currently held by another path); the entry
point performs a single `mutex_trylock`: on failure it returns with
nothing emitted, on success it produces the full snapshot and unlocks.
Returns the emitted fragments and the lock state after the call. -/
def io_uring_show_fdinfo (g : Globals) (uring_lock : Bool) (ctx : Ctx) :
    List Frag × Bool :=
  if uring_lock then
    ([], uring_lock)
  else
    (io_uring_show_fdinfo_worker g ctx, false)

/-- One kernel-log line (`pr_warn`) written by the Stall Diagnostic
Dumper. -/
inductive KLine where
  | header (prefix_text : String) (flags : Nat)
  | sqState (head tail cached_head : Nat)
  | cqState (head tail cached_tail : Nat)
  | nrReqAllocated (n : Nat)
  | cancelSeq (n : Int)
  | pollListHeader
  | listHeader (name : String)
  | req (prefix_text : String) (opname : String) (flags : Nat)
      (user_data : Nat) (refs poll_refs : Int) (task : Int)
      (cancel_seq : Int) (cancel_seq_set : Bool) (tw : String)
  | taskWork (func : String)
  | overflowCount (n : Nat)
  deriving DecidableEq, Repr

/-- The per-request printer `io_uring_dump_req` (fdinfo.c:248-257): one request line with the
given prefix; the task field is the owning task's pid or -1 when the
request has no task context. -/
def io_uring_dump_req (g : Globals) (prefix_text : String) (req : Req) :
    KLine :=
  KLine.req prefix_text (g.io_uring_get_opcode req.opcode) req.flags
    req.user_data req.refs req.poll_refs
    (match req.tctx with | some t => t.pid | none => -1)
    req.cancel_seq req.cancel_seq_set req.tw_func

/-- The lock-free-list printer `io_uring_dump_llist` (fdinfo.c:259-269): nothing for an empty list,
otherwise a labelled header and one request line per node. -/
def io_uring_dump_llist (g : Globals) (name : String) (list : List Req) :
    List KLine :=
  if list.isEmpty then []
  else KLine.listHeader name :: list.map (io_uring_dump_req g "    req")

/-- The task-work printer `io_uring_dump_task_works` (fdinfo.c:271-277): one line per queued
task_work callback of the task. -/
def io_uring_dump_task_works (task : Tctx) : List KLine :=
  task.task_works.map KLine.taskWork

/-- The body of `io_uring_dump_reqs` after the lockdep assertion
(fdinfo.c:293-343): header, ring cursors when the rings are allocated,
allocation/cancellation counters, the poll table with nested task_works,
the three lock-free lists, the deferral list, and the overflow count
(printed only when nonzero). -/
def io_uring_dump_reqs_body (g : Globals) (ctx : Ctx)
    (prefix_text : String) : List KLine :=
  [KLine.header prefix_text 0] ++
  (match ctx.rings with
   | some r =>
     [KLine.sqState (r.sq_head % U32) (r.sq_tail % U32)
        (ctx.cached_sq_head % U32),
      KLine.cqState (r.cq_head % U32) (r.cq_tail % U32)
        (ctx.cached_cq_tail % U32)]
   | none => []) ++
  [KLine.nrReqAllocated ctx.nr_req_allocated,
   KLine.cancelSeq ctx.cancel_seq, KLine.pollListHeader] ++
  (ctx.cancel_table.flatMap (fun hb =>
    hb.flatMap (fun req =>
      io_uring_dump_req g "    poll" req ::
        (match req.tctx with
         | some t => if !t.task_works.isEmpty then
             io_uring_dump_task_works t else []
         | none => [])))) ++
  io_uring_dump_llist g "work_llist" ctx.work_llist ++
  io_uring_dump_llist g "retry_llist" ctx.retry_llist ++
  io_uring_dump_llist g "fallback_llist" ctx.fallback_llist ++
  (if ctx.defer_list.isEmpty then []
   else KLine.listHeader "defer_list" ::
     ctx.defer_list.map (io_uring_dump_req g "    req")) ++
  (if ctx.cq_overflow_list.length ≠ 0 then
    [KLine.overflowCount ctx.cq_overflow_list.length]
   else [])

/-- Result of a dumper call: either the lockdep assertion on the main
mutex fails (caller did not hold `ctx->uring_lock`), or the kernel-log
lines are produced. -/
inductive DumpResult where
  | assertionFailed
  | ok (lines : List KLine)
  deriving DecidableEq

/-- The dumper entry point `io_uring_dump_reqs` (fdinfo.c:283-344). `uring_lock_held` is whether
the caller holds the ring's main mutex. The routine performs no lock
acquisition of its own: it only asserts the lock is held
(`lockdep_assert_held`, fdinfo.c:291), failing fatally otherwise.
Returns the result and the (unchanged) lock state after the call. -/
def io_uring_dump_reqs (g : Globals) (uring_lock_held : Bool) (ctx : Ctx)
    (prefix_text : String) : DumpResult × Bool :=
  if uring_lock_held then
    (DumpResult.ok (io_uring_dump_reqs_body g ctx prefix_text),
     uring_lock_held)
  else
    (DumpResult.assertionFailed, uring_lock_held)

/-- One decimal/hex digit character (`0..9a..f`); callers always pass a
value below the base. -/
def digitChar (d : Nat) : Char :=
  if d < 10 then Char.ofNat (48 + d) else Char.ofNat (87 + d)

/-- The decimal digits of `n`, most significant first (`%u`/`%llu`). -/
def natChars (n : Nat) : List Char :=
  if n < 10 then [digitChar n]
  else natChars (n / 10) ++ [digitChar (n % 10)]
decreasing_by exact Nat.div_lt_self (by omega) (by omega)

/-- The hexadecimal digits of `n`, most significant first (`%x`). -/
def hexChars (n : Nat) : List Char :=
  if n < 16 then [digitChar n]
  else hexChars (n / 16) ++ [digitChar (n % 16)]
decreasing_by exact Nat.div_lt_self (by omega) (by omega)

/-- The decimal rendering of a signed value (`%d`). -/
def intChars (i : Int) : List Char :=
  if i < 0 then Char.ofNat 45 :: natChars i.natAbs else natChars i.toNat

/-- The characters a fragment adds to the seq_file, following the format
strings of fdinfo.c (field-width padding elided; it inserts spaces only).
`cqeMain` carries no newline (fdinfo.c:159), `cqeExtra` ends in one
(fdinfo.c:163) and `newline` is the unconditional `"\n"` (fdinfo.c:165). -/
def render : Frag → List Char
  | Frag.kvU key v => key.toList ++ [Char.ofNat 58, Char.ofNat 9] ++
      natChars v ++ [Char.ofNat 10]
  | Frag.kvX key v => key.toList ++ [Char.ofNat 58, Char.ofNat 9] ++
      (Char.ofNat 48 :: Char.ofNat 120 :: hexChars v) ++ [Char.ofNat 10]
  | Frag.kvI key v => key.toList ++ [Char.ofNat 58, Char.ofNat 9] ++
      intChars v ++ [Char.ofNat 10]
  | Frag.text s => s.toList ++ [Char.ofNat 10]
  | Frag.sqeLine sq_idx opname sqe extras =>
      natChars sq_idx ++ (": opcode:").toList ++ opname.toList ++
      (", fd:").toList ++ intChars sqe.fd ++
      (", flags:").toList ++ hexChars sqe.flags ++
      (", off:").toList ++ natChars sqe.off ++
      (", addr:0x").toList ++ hexChars sqe.addr ++
      (", rw_flags:0x").toList ++ hexChars sqe.rw_flags ++
      (", buf_index:").toList ++ natChars sqe.buf_index ++
      (" user_data:").toList ++ natChars sqe.user_data ++
      ((extras.zip (List.range extras.length)).flatMap (fun p =>
        (", e").toList ++ natChars p.2 ++ (":0x").toList ++
          hexChars p.1)) ++
      [Char.ofNat 10]
  | Frag.invalidSqe sq_idx =>
      natChars sq_idx ++
      (": invalid sqe, 128B entry on non-mixed sq").toList ++
      [Char.ofNat 10]
  | Frag.corruptedSqe sq_idx =>
      natChars sq_idx ++ (": corrupted sqe, wrapping 128B entry").toList ++
      [Char.ofNat 10]
  | Frag.cqeMain idx cqe =>
      natChars idx ++ (": user_data:").toList ++ natChars cqe.user_data ++
      (", res:").toList ++ intChars cqe.res ++
      (", flags:").toList ++ hexChars cqe.flags
  | Frag.cqeExtra e1 e2 =>
      (", extra1:").toList ++ natChars e1 ++ (", extra2:").toList ++
      natChars e2 ++ [Char.ofNat 10]
  | Frag.newline => [Char.ofNat 10]
  | Frag.filePath i path => natChars i ++ (": ").toList ++ path.toList ++
      [Char.ofNat 10]
  | Frag.bufLine i addr len => natChars i ++ (": 0x").toList ++
      hexChars addr ++ (Char.ofNat 47 :: natChars len) ++ [Char.ofNat 10]
  | Frag.bufNone i => natChars i ++ (": <none>").toList ++ [Char.ofNat 10]
  | Frag.pollEntry op tw => ("  op=").toList ++ natChars op ++
      (", task_works=").toList ++ natChars (if tw then 1 else 0) ++
      [Char.ofNat 10]
  | Frag.overflowEntry ud res fl => ("  user_data=").toList ++
      natChars ud ++ (", res=").toList ++ intChars res ++
      (", flags=").toList ++ hexChars fl ++ [Char.ofNat 10]
  | Frag.napiUnknown raw => ("NAPI:\tunknown mode (").toList ++
      natChars raw ++ [Char.ofNat 41, Char.ofNat 10]

/-- The characters a fragment list prints, in order. -/
def renderAll (l : List Frag) : List Char := l.flatMap render

/-- Whether a fragment is a per-SQE output line. -/
def isSqeLine : Frag → Bool
  | Frag.sqeLine _ _ _ _ => true
  | _ => false

/-- Whether a fragment is a registered-buffer table row (occupied or
placeholder). -/
def isBufRow : Frag → Bool
  | Frag.bufLine _ _ _ => true
  | Frag.bufNone _ => true
  | _ => false

/-- Whether a fragment is the `<none>` placeholder row of the
registered-buffer table. -/
def isBufNoneRow : Frag → Bool
  | Frag.bufNone _ => true
  | _ => false

/-- Whether a fragment is an occupied registered-buffer table row. -/
def isBufOccRow : Frag → Bool
  | Frag.bufLine _ _ _ => true
  | _ => false

/-- Whether a fragment is a registered-file table row. -/
def isFileRow : Frag → Bool
  | Frag.filePath _ _ => true
  | _ => false

/-- SQ-scan iteration `i` (with head cursor `sq_head`) hits none of the
scan's guards: the resolved slot index is within the mask, the opcode is
in range, and the entry is not a wide (128-byte) entry unless the whole
ring is in 128-byte mode (`shift ≠ 0`). Such an iteration prints exactly
one per-SQE line and leaves the head cursor untouched. -/
def plainEntry (g : Globals) (ctx : Ctx) (sq_mask shift i sq_head : Nat) :
    Bool :=
  let idx := sqIdxAt ctx sq_mask i sq_head
  let sqe := ctx.sq_sqes (idx <<< shift)
  decide (idx ≤ sq_mask) && decide (sqe.opcode < g.IORING_OP_LAST) &&
    (shift != 0 || !(g.io_issue_defs sqe.opcode).is_128)

/-- The per-SQE line that SQ-scan iteration `i` prints when it hits no
guard. -/
def sqLineAt (g : Globals) (ctx : Ctx) (sq_mask shift i sq_head : Nat) :
    Frag :=
  let idx := sqIdxAt ctx sq_mask i sq_head
  let sqe := ctx.sq_sqes (idx <<< shift)
  Frag.sqeLine idx (g.io_uring_get_opcode sqe.opcode) sqe
    (if shift ≠ 0 then sqeExtraWords ctx (idx <<< shift) else [])

/-- The number of CQ-ring slots an entry of the given kind occupies
(`true` = 32-byte extended). -/
def cqWidth (k : Bool) : Nat := if k then 2 else 1

/-- Total CQ-ring slots occupied by a sequence of entry kinds. -/
def cqTotalSlots (ks : List Bool) : Nat := (ks.map cqWidth).sum

/-- The CQ ring holds, starting at cursor `head`, a sequence of entries of
the given kinds: the entry at each successive cursor position is detected
as 32-byte extended exactly when its kind says so, each entry occupying
`cqWidth` slots. -/
def cqLayout (g : Globals) (ctx : Ctx) (r : Rings) (cq_mask : Nat) :
    Nat → List Bool → Bool
  | _, [] => true
  | head, k :: ks =>
    (cqe32At g ctx r cq_mask head == k) &&
      cqLayout g ctx r cq_mask (head + cqWidth k) ks

/-- The output the CQ scan is specified to produce for a sequence of entry
kinds starting at cursor `head`: per entry its main line, the two extra
64-bit fields exactly when the entry is 32-byte extended, a terminating
newline, and an advance of `cqWidth` slots. -/
def cqExpected (g : Globals) (ctx : Ctx) (r : Rings) (cq_mask : Nat) :
    Nat → List Bool → List Frag
  | _, [] => []
  | head, k :: ks =>
    (let cqe := r.cqes (head &&& cq_mask)
     [Frag.cqeMain (head &&& cq_mask) cqe] ++
       (if k then [Frag.cqeExtra cqe.big_cqe0 cqe.big_cqe1] else []) ++
       [Frag.newline]) ++
    cqExpected g ctx r cq_mask (head + cqWidth k) ks

/-- The newline character. -/
def NL : Char := Char.ofNat 10

/-- A neutral SQE for concrete test rings. -/
def sqeW : Sqe := ⟨1, 3, 0, 0, 0, 0, 0, 42, []⟩

/-- Concrete external-collaborator table for concrete test rings: ten
opcodes, every opcode wide, CQE flag bit 16. -/
def gW : Globals := ⟨10, fun _ => ⟨true⟩, fun _ => "nop", 16⟩

/-- Concrete external-collaborator table with no wide opcode. -/
def gN : Globals := ⟨10, fun _ => ⟨false⟩, fun _ => "nop", 16⟩

/-- Concrete shared ring memory for concrete test rings: two enqueued
SQEs; CQ entries at slots 0 (32-byte flagged, flag bit 16) and 2
(normal), with `cq_tail = 3`. -/
def ringsW : Rings :=
  ⟨0, 2, 0, 3, fun i => if i == 0 then ⟨7, 1, 16, 100, 200⟩
    else ⟨8, 2, 0, 0, 0⟩⟩

/-- Concrete ring context for witnesses: capacity 4, no setup flags,
no SQ array, all tables and lists empty, every SQE slot `sqeW`. -/
def ctxW : Ctx := {
  sq_entries := 4, cq_entries := 4,
  flags_SQE128 := false, flags_CQE32 := false, flags_SQE_MIXED := false,
  flags_NO_SQARRAY := true, flags_SQPOLL := false,
  rings := some ringsW,
  cached_sq_head := 0, cached_cq_tail := 0,
  sq_array := fun i => i, sq_sqes := fun _ => sqeW,
  sq_data := ⟨-1, -1, 0, none⟩,
  file_table := [], buf_table := [], cancel_table := [],
  cq_overflow_list := [], work_llist := [], retry_llist := [],
  fallback_llist := [], defer_list := [], nr_req_allocated := 0,
  cancel_seq := 0, napi_track_mode := NapiMode.inactive,
  napi_busy_poll_dt := 0, napi_prefer_busy_poll := false }

/-- `ctxW` with mixed-width SQE mode enabled. -/
def ctxWmixed : Ctx := { ctxW with flags_SQE_MIXED := true }

/-- `ctxW` with every SQE slot's opcode out of range (10 =
`IORING_OP_LAST` of `gW`/`gN`). -/
def ctxWbad : Ctx :=
  { ctxW with sq_sqes := fun _ => { sqeW with opcode := 10 } }

/-- Shared ring memory with exactly one enqueued SQE (`sq_tail = 1`). -/
def ringsW1 : Rings := { ringsW with sq_tail := 1 }

/-- C1: the Snapshot Reporter entry point takes the main coordination lock
with a single non-blocking trylock. If the lock is already held the call
returns immediately with nothing written to the sink and the lock state
untouched; if the trylock succeeds, the full snapshot
(`io_uring_show_fdinfo_worker`, i.e. `__io_uring_show_fdinfo`) is produced
and the lock is released (final lock state free) before returning. -/
theorem C1_show_fdinfo_trylock (g : Globals) (ctx : Ctx) :
    io_uring_show_fdinfo g true ctx = ([], true) ∧
    io_uring_show_fdinfo g false ctx =
      (io_uring_show_fdinfo_worker g ctx, false) :=
  ⟨rfl, rfl⟩

/-- C6: the Stall Diagnostic Dumper never acquires the main coordination
lock itself: called without the lock held it hits the lockdep assertion
(`DumpResult.assertionFailed`) rather than producing output, and called
with the lock held it produces the dump; in both cases the lock state is
returned exactly as it was (no acquisition, no release). -/
theorem C6_dump_reqs_asserts_lock (g : Globals) (ctx : Ctx) (p : String) :
    io_uring_dump_reqs g false ctx p = (DumpResult.assertionFailed, false) ∧
    io_uring_dump_reqs g true ctx p =
      (DumpResult.ok (io_uring_dump_reqs_body g ctx p), true) :=
  ⟨rfl, rfl⟩

/-- C3: an SQ-scan iteration whose resolved slot index is in range but
whose opcode is at or above `IORING_OP_LAST` emits nothing for that entry
and continues with the next iteration (same head cursor, next loop index):
the out-of-range-opcode guard never terminates the scan early. -/
theorem C3_oob_opcode_skips (g : Globals) (ctx : Ctx)
    (sq_mask shift fuel i sq_head : Nat)
    (hidx : sqIdxAt ctx sq_mask i sq_head ≤ sq_mask)
    (hop : (ctx.sq_sqes (sqIdxAt ctx sq_mask i sq_head <<< shift)).opcode ≥
      g.IORING_OP_LAST) :
    sqScan g ctx sq_mask shift (fuel + 1) i sq_head =
      sqScan g ctx sq_mask shift fuel (i + 1) sq_head := by
  simp only [sqScan]
  rw [if_neg (by omega), if_pos hop]

/-- C3 witness: with every SQE's opcode equal to `IORING_OP_LAST`, the
first iteration skips and the scan continues at the next entry. -/
theorem C3_oob_opcode_skips_witness :
    sqIdxAt ctxWbad 3 0 0 ≤ 3 ∧
    (ctxWbad.sq_sqes (sqIdxAt ctxWbad 3 0 0 <<< 0)).opcode ≥
      gN.IORING_OP_LAST ∧
    sqScan gN ctxWbad 3 0 2 0 0 = sqScan gN ctxWbad 3 0 1 1 0 :=
  ⟨by decide, by decide,
   C3_oob_opcode_skips gN ctxWbad 3 0 1 0 0 (by decide) (by decide)⟩

/-- C2: an SQ-scan iteration (on a ring without `IORING_SETUP_SQE128`,
hence `sq_shift = 0`) that reaches an in-range, valid-opcode entry whose
opcode is marked 128-byte wide while `IORING_SETUP_SQE_MIXED` is off
emits exactly the single "invalid sqe" diagnostic line and nothing more:
the scan stops there for the rest of the call's SQ section. -/
theorem C2_invalid_wide_sqe_stops_scan (g : Globals) (ctx : Ctx)
    (sq_mask fuel i sq_head : Nat)
    (hsqe128 : ctx.flags_SQE128 = false)
    (hmix : ctx.flags_SQE_MIXED = false)
    (hidx : sqIdxAt ctx sq_mask i sq_head ≤ sq_mask)
    (hop : (ctx.sq_sqes (sqIdxAt ctx sq_mask i sq_head)).opcode <
      g.IORING_OP_LAST)
    (hwide : (g.io_issue_defs
      (ctx.sq_sqes (sqIdxAt ctx sq_mask i sq_head)).opcode).is_128 = true) :
    sqScan g ctx sq_mask (sq_shift ctx) (fuel + 1) i sq_head =
      [Frag.invalidSqe (sqIdxAt ctx sq_mask i sq_head)] := by
  have hs : sq_shift ctx = 0 := by simp [sq_shift, hsqe128]
  rw [hs]
  simp only [sqScan, Nat.shiftLeft_zero]
  rw [if_neg (by omega), if_neg (by omega)]
  simp [array_index_nospec, hop, hwide, hmix]

/-- C2 witness: a non-mixed, non-SQE128 ring whose first entry's opcode is
wide yields exactly the one "invalid sqe" line even with more entries and
fuel remaining. -/
theorem C2_invalid_wide_sqe_stops_scan_witness :
    ctxW.flags_SQE128 = false ∧ ctxW.flags_SQE_MIXED = false ∧
    (gW.io_issue_defs (ctxW.sq_sqes (sqIdxAt ctxW 3 0 0)).opcode).is_128 =
      true ∧
    sqScan gW ctxW 3 (sq_shift ctxW) 2 0 0 =
      [Frag.invalidSqe (sqIdxAt ctxW 3 0 0)] :=
  ⟨rfl, rfl, by decide,
   C2_invalid_wide_sqe_stops_scan gW ctxW 3 1 0 0 rfl rfl (by decide)
     (by decide) (by decide)⟩

/-- C5: an SQ-scan iteration in mixed-width mode (ring not globally
SQE128) that reaches an in-range, valid-opcode wide entry whose
consumption wraps the masked head cursor to zero (`(++sq_head & sq_mask)
== 0`) emits exactly the single "corrupted sqe" diagnostic line and stops
scanning. -/
theorem C5_wrapping_wide_sqe_stops_scan (g : Globals) (ctx : Ctx)
    (sq_mask fuel i sq_head : Nat)
    (hsqe128 : ctx.flags_SQE128 = false)
    (hmix : ctx.flags_SQE_MIXED = true)
    (hidx : sqIdxAt ctx sq_mask i sq_head ≤ sq_mask)
    (hop : (ctx.sq_sqes (sqIdxAt ctx sq_mask i sq_head)).opcode <
      g.IORING_OP_LAST)
    (hwide : (g.io_issue_defs
      (ctx.sq_sqes (sqIdxAt ctx sq_mask i sq_head)).opcode).is_128 = true)
    (hwrap : ((sq_head + 1) % U32) &&& sq_mask = 0) :
    sqScan g ctx sq_mask (sq_shift ctx) (fuel + 1) i sq_head =
      [Frag.corruptedSqe (sqIdxAt ctx sq_mask i sq_head)] := by
  have hs : sq_shift ctx = 0 := by simp [sq_shift, hsqe128]
  rw [hs]
  simp only [sqScan, Nat.shiftLeft_zero]
  rw [if_neg (by omega), if_neg (by omega)]
  simp [array_index_nospec, hop, hwide, hmix, hwrap]

/-- C5 witness: a mixed-width ring of capacity 2 (mask 1) whose wide entry
at head 1 wraps the masked cursor to 0 yields exactly the one
"corrupted sqe" line. -/
theorem C5_wrapping_wide_sqe_stops_scan_witness :
    ctxWmixed.flags_SQE_MIXED = true ∧
    ((1 + 1) % U32) &&& 1 = 0 ∧
    sqScan gW ctxWmixed 1 (sq_shift ctxWmixed) 2 0 1 =
      [Frag.corruptedSqe (sqIdxAt ctxWmixed 1 0 1)] :=
  ⟨rfl, by decide,
   C5_wrapping_wide_sqe_stops_scan gW ctxWmixed 1 1 0 1 rfl rfl (by decide)
     (by decide) (by decide) (by decide)⟩

theorem bufRows_countP_row (l : List (Option BufNode)) :
    ∀ i, (bufRows i l).countP isBufRow = l.length := by
  induction l with
  | nil => intro i; simp [bufRows]
  | cons node rest ih =>
    intro i
    cases h : slotBuf node <;>
      simp [bufRows, h, List.countP_cons, isBufRow, ih]

theorem bufRows_countP_occ (l : List (Option BufNode)) :
    ∀ i, (bufRows i l).countP isBufOccRow =
      l.countP (fun n => (slotBuf n).isSome) := by
  induction l with
  | nil => intro i; simp [bufRows]
  | cons node rest ih =>
    intro i
    cases h : slotBuf node <;>
      simp [bufRows, h, List.countP_cons, isBufOccRow, ih]

theorem bufRows_countP_none (l : List (Option BufNode)) :
    ∀ i, (bufRows i l).countP isBufNoneRow =
      l.length - l.countP (fun n => (slotBuf n).isSome) := by
  induction l with
  | nil => intro i; simp [bufRows]
  | cons node rest ih =>
    intro i
    have hle := List.countP_le_length
      (p := fun n => (slotBuf n).isSome) (l := rest)
    cases h : slotBuf node <;>
      simp [bufRows, h, List.countP_cons, isBufNoneRow, ih] <;> omega

theorem fileRows_countP (l : List (Option FileNode)) :
    ∀ i, (fileRows i l).countP isFileRow =
      l.countP (fun n => (slotFile n).isSome) := by
  induction l with
  | nil => intro i; simp [fileRows]
  | cons node rest ih =>
    intro i
    cases h : slotFile node <;>
      simp [fileRows, h, List.countP_cons, isFileRow, ih]

/-- C8: in the table sections, a registered-buffer table with K slots of
which M are occupied emits exactly K rows — M occupied rows and K−M
`<none>` placeholder rows — while a registered-file table with M occupied
slots emits exactly M rows (empty file slots get no placeholder). -/
theorem C8_buf_rows_vs_file_rows (ctx : Ctx) :
    (bufSection ctx).countP isBufRow = ctx.buf_table.length ∧
    (bufSection ctx).countP isBufOccRow =
      ctx.buf_table.countP (fun n => (slotBuf n).isSome) ∧
    (bufSection ctx).countP isBufNoneRow =
      ctx.buf_table.length -
        ctx.buf_table.countP (fun n => (slotBuf n).isSome) ∧
    (fileSection ctx).countP isFileRow =
      ctx.file_table.countP (fun n => (slotFile n).isSome) := by
  refine ⟨?_, ?_, ?_, ?_⟩ <;>
    simp [bufSection, fileSection, List.countP_cons, isBufRow, isBufOccRow,
      isBufNoneRow, isFileRow, bufRows_countP_row, bufRows_countP_occ,
      bufRows_countP_none, fileRows_countP]

theorem sqScan_countP_le (g : Globals) (ctx : Ctx) (sq_mask shift : Nat) :
    ∀ fuel i sq_head,
      (sqScan g ctx sq_mask shift fuel i sq_head).countP isSqeLine ≤
        fuel := by
  intro fuel
  induction fuel with
  | zero => intro i sq_head; simp [sqScan]
  | succ n ih =>
    intro i sq_head
    simp only [sqScan]
    split
    · exact (ih _ _).trans (Nat.le_succ n)
    · split
      · exact (ih _ _).trans (Nat.le_succ n)
      · split
        · have := ih (i + 1) sq_head
          simp [List.countP_cons, isSqeLine]
          omega
        · split
          · split
            · simp [List.countP_cons, isSqeLine]
            · split
              · simp [List.countP_cons, isSqeLine]
              · have := ih (i + 1) ((sq_head + 1) % U32)
                simp [List.countP_cons, isSqeLine]
                omega
          · have := ih (i + 1) sq_head
            simp [List.countP_cons, isSqeLine]
            omega

/-- C9: the SQ section never emits more per-SQE lines than the clamped
scan count `min(sq_tail - sq_head, ctx->sq_entries)`, and in particular
never more than the ring's configured SQ capacity, even when the racy
observed u32 tail-minus-head difference exceeds that capacity. -/
theorem C9_sq_scan_bounded_by_capacity (g : Globals) (ctx : Ctx)
    (r : Rings) :
    (sqSection g ctx r).countP isSqeLine ≤
      Nat.min (sub32 (r.sq_tail % U32) (r.sq_head % U32)) ctx.sq_entries ∧
    (sqSection g ctx r).countP isSqeLine ≤ ctx.sq_entries := by
  have h := sqScan_countP_le g ctx (ctx.sq_entries - 1) (sq_shift ctx)
    (Nat.min (sub32 (r.sq_tail % U32) (r.sq_head % U32)) ctx.sq_entries)
    0 (r.sq_head % U32)
  have hmin : Nat.min (sub32 (r.sq_tail % U32) (r.sq_head % U32))
      ctx.sq_entries ≤ ctx.sq_entries := Nat.min_le_right _ _
  have hmin2 : Nat.min (sub32 (r.sq_tail % U32) (r.sq_head % U32))
      ctx.sq_entries ≤ sub32 (r.sq_tail % U32) (r.sq_head % U32) :=
    Nat.min_le_left _ _
  constructor <;> · simp [sqSection, List.countP_cons, isSqeLine]
                    omega

theorem sqScan_plain (g : Globals) (ctx : Ctx) (sq_mask shift : Nat) :
    ∀ (fuel i sq_head : Nat),
      (∀ j, j < fuel →
        plainEntry g ctx sq_mask shift (i + j) sq_head = true) →
      sqScan g ctx sq_mask shift fuel i sq_head =
        (List.range fuel).map
          (fun j => sqLineAt g ctx sq_mask shift (i + j) sq_head) := by
  intro fuel
  induction fuel with
  | zero => intro i sq_head _; simp [sqScan]
  | succ n ih =>
    intro i sq_head h
    have h0 := h 0 (Nat.succ_pos n)
    simp only [plainEntry, Nat.add_zero, Bool.and_eq_true,
      decide_eq_true_eq, Bool.or_eq_true, bne_iff_ne, ne_eq,
      Bool.not_eq_true'] at h0
    obtain ⟨⟨hidx, hop⟩, hw⟩ := h0
    have htail := ih (i + 1) sq_head (fun j hj => by
      have hx := h (j + 1) (by omega)
      have hadd : i + (j + 1) = i + 1 + j := by omega
      rwa [hadd] at hx)
    have hmap : (List.range n).map
        ((fun j => sqLineAt g ctx sq_mask shift (i + j) sq_head) ∘
          Nat.succ) =
        (List.range n).map
          (fun j => sqLineAt g ctx sq_mask shift (i + 1 + j) sq_head) := by
      apply List.map_congr_left
      intro j _
      have hadd : i + Nat.succ j = i + 1 + j := by omega
      simp only [Function.comp_apply]
      rw [hadd]
    have hclamp : array_index_nospec
        (ctx.sq_sqes (sqIdxAt ctx sq_mask i sq_head <<< shift)).opcode
        g.IORING_OP_LAST =
        (ctx.sq_sqes (sqIdxAt ctx sq_mask i sq_head <<< shift)).opcode :=
      if_pos hop
    simp only [sqScan]
    rw [if_neg (by omega), if_neg (by omega)]
    rw [List.range_succ_eq_map, List.map_cons, List.map_map, hmap]
    rcases hw with hs | hw128
    · rw [if_pos hs, htail]
      congr 1
      simp only [sqLineAt, hclamp, Nat.add_zero, if_pos hs]
    · by_cases hs : shift = 0
      · subst hs
        simp only [Nat.shiftLeft_zero] at hop hw128 hclamp ⊢
        rw [if_neg (by simp), hclamp]
        rw [if_neg (by simp [hw128]), htail]
        congr 1
      · rw [if_pos hs, htail]
        congr 1
        simp only [sqLineAt, hclamp, Nat.add_zero, if_pos hs]

/-- C7 counterexample: a ring with exactly one enqueued submission (N = 1
≤ capacity 4) whose entry's opcode equals `IORING_OP_LAST` makes the SQ
section emit zero per-entry lines, not N: the claim as stated fails on
rings containing entries that trip a scan guard. -/
theorem C7_counterexample :
    sub32 (ringsW1.sq_tail % U32) (ringsW1.sq_head % U32) = 1 ∧
    sub32 (ringsW1.sq_tail % U32) (ringsW1.sq_head % U32) ≤
      ctxWbad.sq_entries ∧
    (sqSection gN ctxWbad ringsW1).countP isSqeLine = 0 ∧
    (sqSection gN ctxWbad ringsW1).countP isSqeLine ≠
      sub32 (ringsW1.sq_tail % U32) (ringsW1.sq_head % U32) :=
  ⟨by decide, by decide, by decide, by decide⟩

/-- C7 (amended): for a ring with N enqueued submissions, N at most the
SQ capacity, whose scanned entries all hit none of the scan's guards
(in-range resolved index, in-range opcode, no 128-byte entry outside
global 128-byte mode), the SQ section is exactly the `SQEs: N` count line
followed by N per-entry lines, one per iteration, in index order starting
at the observed head cursor; for head = tail this gives a count of 0 and
no per-entry lines. -/
theorem C7_sq_section_plain (g : Globals) (ctx : Ctx) (r : Rings)
    (hcap : sub32 (r.sq_tail % U32) (r.sq_head % U32) ≤ ctx.sq_entries)
    (hplain : ∀ j, j < sub32 (r.sq_tail % U32) (r.sq_head % U32) →
      plainEntry g ctx (ctx.sq_entries - 1) (sq_shift ctx) j
        (r.sq_head % U32) = true) :
    sqSection g ctx r =
      Frag.kvU "SQEs" (sub32 (r.sq_tail % U32) (r.sq_head % U32)) ::
        (List.range (sub32 (r.sq_tail % U32) (r.sq_head % U32))).map
          (fun j => sqLineAt g ctx (ctx.sq_entries - 1) (sq_shift ctx) j
            (r.sq_head % U32)) := by
  have hmin : Nat.min (sub32 (r.sq_tail % U32) (r.sq_head % U32))
      ctx.sq_entries = sub32 (r.sq_tail % U32) (r.sq_head % U32) :=
    Nat.min_eq_left hcap
  have hscan := sqScan_plain g ctx (ctx.sq_entries - 1) (sq_shift ctx)
    (sub32 (r.sq_tail % U32) (r.sq_head % U32)) 0 (r.sq_head % U32)
    (fun j hj => by simpa using hplain j hj)
  simp only [sqSection, hmin, hscan, Nat.zero_add]

/-- C7 witness: a ring with two enqueued plain submissions emits exactly
the count line and the two per-entry lines for indices 0 and 1. -/
theorem C7_sq_section_plain_witness :
    sub32 (ringsW.sq_tail % U32) (ringsW.sq_head % U32) ≤
      ctxW.sq_entries ∧
    sqSection gN ctxW ringsW =
      Frag.kvU "SQEs" (sub32 (ringsW.sq_tail % U32) (ringsW.sq_head % U32))
        :: (List.range
            (sub32 (ringsW.sq_tail % U32) (ringsW.sq_head % U32))).map
          (fun j => sqLineAt gN ctxW (ctxW.sq_entries - 1) (sq_shift ctxW)
            j (ringsW.sq_head % U32)) :=
  ⟨by decide,
   C7_sq_section_plain gN ctxW ringsW (by decide)
     (fun j hj => by
       have h2 : sub32 (ringsW.sq_tail % U32) (ringsW.sq_head % U32) = 2 :=
         by decide
       rw [h2] at hj
       interval_cases j <;> decide)⟩

/-- C4: over any sequence of completion entries mixing 32-byte-extended
and normal kinds laid out in the CQ ring starting at `head` (with
`tail = head + total slots`, no u32 wrap), the scan prints, per entry
detected as 32-byte-extended, its two extra 64-bit fields and advances
the cursor two slots, and per normal entry no extra fields and a
one-slot advance (`cqExpected`); the final cursor equals the tail, so
the total number of slots consumed is exactly `cq_tail - cq_head`. -/
theorem C4_cq_scan_mixed_widths (g : Globals) (ctx : Ctx) (r : Rings)
    (cq_mask : Nat) :
    ∀ (ks : List Bool) (head fuel : Nat),
      ks.length ≤ fuel →
      head + cqTotalSlots ks < U32 →
      cqLayout g ctx r cq_mask head ks = true →
      cqScan g ctx r cq_mask fuel head (head + cqTotalSlots ks) =
        (cqExpected g ctx r cq_mask head ks,
         head + cqTotalSlots ks) := by
  intro ks
  induction ks with
  | nil =>
    intro head fuel _ _ _
    cases fuel <;> simp [cqScan, cqTotalSlots, cqExpected]
  | cons k ks ih =>
    intro head fuel hfuel hfit hlay
    cases fuel with
    | zero => simp at hfuel
    | succ f =>
      simp only [cqLayout, Bool.and_eq_true, beq_iff_eq] at hlay
      obtain ⟨hk, hrest⟩ := hlay
      have htot : cqTotalSlots (k :: ks) = cqWidth k + cqTotalSlots ks := by
        simp [cqTotalSlots]
      have hw1 : 1 ≤ cqWidth k := by cases k <;> simp [cqWidth]
      have hmod : (head + cqWidth k) % U32 = head + cqWidth k :=
        Nat.mod_eq_of_lt (by omega)
      have hihyp := ih (head + cqWidth k) f (by
          simpa using Nat.lt_succ_iff.mp (Nat.lt_of_lt_of_le
            (Nat.lt_succ_of_le (le_refl _)) hfuel))
        (by omega) hrest
      simp only [cqScan]
      rw [if_pos (by omega), hk]
      have hstep : (if k then 2 else 1) = cqWidth k := rfl
      rw [hstep, hmod]
      have harr : head + cqTotalSlots (k :: ks) =
          head + cqWidth k + cqTotalSlots ks := by omega
      rw [harr, hihyp]
      simp only [cqExpected, cqEntryFrags, hk]

/-- C4 witness: a concrete CQ ring holding one 32-byte-extended entry
(slots 0-1) followed by one normal entry (slot 2), with tail 3: the scan
consumes exactly 3 = tail − head slots and prints the extra fields only
for the extended entry. -/
theorem C4_cq_scan_mixed_widths_witness :
    cqLayout gN ctxW ringsW 3 0 [true, false] = true ∧
    0 + cqTotalSlots [true, false] = 3 ∧
    cqScan gN ctxW ringsW 3 2 0 (0 + cqTotalSlots [true, false]) =
      (cqExpected gN ctxW ringsW 3 0 [true, false],
       0 + cqTotalSlots [true, false]) :=
  ⟨by decide, by decide,
   C4_cq_scan_mixed_widths gN ctxW ringsW 3 [true, false] 0 2 (by decide)
     (by decide) (by decide)⟩

theorem digitChar_ne_nl : ∀ d : Nat, d < 16 → digitChar d ≠ NL := by
  decide

theorem natChars_no_nl : ∀ n : Nat, NL ∉ natChars n := by
  intro n
  induction n using Nat.strong_induction_on with
  | _ n ih =>
    rw [natChars]
    split
    · intro hmem
      rw [List.mem_singleton] at hmem
      exact digitChar_ne_nl n (by omega) hmem.symm
    · intro hmem
      rcases List.mem_append.mp hmem with hmem | hmem
      · exact ih (n / 10) (Nat.div_lt_self (by omega) (by omega)) hmem
      · rw [List.mem_singleton] at hmem
        exact digitChar_ne_nl (n % 10) (by omega) hmem.symm

theorem hexChars_no_nl : ∀ n : Nat, NL ∉ hexChars n := by
  intro n
  induction n using Nat.strong_induction_on with
  | _ n ih =>
    rw [hexChars]
    split
    · intro hmem
      rw [List.mem_singleton] at hmem
      exact digitChar_ne_nl n (by omega) hmem.symm
    · intro hmem
      rcases List.mem_append.mp hmem with hmem | hmem
      · exact ih (n / 16) (Nat.div_lt_self (by omega) (by omega)) hmem
      · rw [List.mem_singleton] at hmem
        exact digitChar_ne_nl (n % 16) (by omega) hmem.symm

theorem intChars_no_nl (i : Int) : NL ∉ intChars i := by
  rw [intChars]
  split
  · intro hmem
    rcases List.mem_cons.mp hmem with hmem | hmem
    · exact absurd hmem.symm (by decide)
    · exact natChars_no_nl _ hmem
  · exact natChars_no_nl _

theorem cqeMain_render_no_nl (idx : Nat) (cqe : Cqe) :
    NL ∉ render (Frag.cqeMain idx cqe) := by
  simp [render, List.mem_append, natChars_no_nl, intChars_no_nl,
    hexChars_no_nl]
  decide

/-- C10: in the CQ section, an entry detected as 32-byte-extended emits
its main text, then its extra-fields text already ending in a newline,
then the unconditional newline, so its full output is some
newline-free text followed by two consecutive newlines (a blank line
follows it); a normal entry's full output is newline-free text followed
by exactly the one unconditional newline (one line, no blank line). -/
theorem C10_cq_entry_newlines (g : Globals) (ctx : Ctx) (r : Rings)
    (cq_mask cq_head : Nat) :
    (cqe32At g ctx r cq_mask cq_head = true →
      ∃ body, renderAll (cqEntryFrags g ctx r cq_mask cq_head) =
          body ++ [NL, NL] ∧ NL ∉ body) ∧
    (cqe32At g ctx r cq_mask cq_head = false →
      ∃ body, renderAll (cqEntryFrags g ctx r cq_mask cq_head) =
          body ++ [NL] ∧ NL ∉ body) := by
  have h4 : NL ∉ (", extra1:").toList := by decide
  have h5 : NL ∉ (", extra2:").toList := by decide
  constructor
  · intro h
    refine ⟨render (Frag.cqeMain (cq_head &&& cq_mask)
        (r.cqes (cq_head &&& cq_mask))) ++
      ((", extra1:").toList ++
        natChars (r.cqes (cq_head &&& cq_mask)).big_cqe0 ++
        (", extra2:").toList ++
        natChars (r.cqes (cq_head &&& cq_mask)).big_cqe1), ?_, ?_⟩
    · show renderAll (cqEntryFrags g ctx r cq_mask cq_head) = _
      simp [cqEntryFrags, h, renderAll, render, NL]
    · simp [List.mem_append, cqeMain_render_no_nl, natChars_no_nl]
      decide
  · intro h
    refine ⟨render (Frag.cqeMain (cq_head &&& cq_mask)
        (r.cqes (cq_head &&& cq_mask))), ?_, ?_⟩
    · show renderAll (cqEntryFrags g ctx r cq_mask cq_head) = _
      simp [cqEntryFrags, h, renderAll, render, NL]
    · exact cqeMain_render_no_nl _ _

/-- C10 witness: the extended entry at cursor 0 of the concrete ring ends
in a blank line; the normal entry at cursor 2 ends in a single newline. -/
theorem C10_cq_entry_newlines_witness :
    cqe32At gN ctxW ringsW 3 0 = true ∧
    cqe32At gN ctxW ringsW 3 2 = false ∧
    (∃ body, renderAll (cqEntryFrags gN ctxW ringsW 3 0) =
        body ++ [NL, NL] ∧ NL ∉ body) ∧
    (∃ body, renderAll (cqEntryFrags gN ctxW ringsW 3 2) =
        body ++ [NL] ∧ NL ∉ body) :=
  ⟨by decide, by decide,
   (C10_cq_entry_newlines gN ctxW ringsW 3 0).1 (by decide),
   (C10_cq_entry_newlines gN ctxW ringsW 3 2).2 (by decide)⟩

end Fdinfo
